import Mathlib

/-!
Shallow embedding of the movie analytics and recommendation service
(FastAPI + MongoDB + Neo4j).  The graph store holds Person and Movie
nodes joined by typed edges; the document store contributes title lists.
Cypher queries are translated to pure list computations over an explicit
`Graph` value; endpoints return `Except HTTPError result`, where an
`HTTPError` carries the HTTP status and detail string the route would
produce.  Counting queries assume the store invariants stated in the
data model (unique person names, unique movie titles, at most one edge
of a given type between a person and a movie); no theorem below depends
on tie-breaking of equal scores.
-/

namespace MoviesApp

/-- An edge type of the property graph (`src/seed.py` creates exactly these). -/
inductive EdgeType where
  | ACTED_IN
  | DIRECTED
  | WROTE
  | PRODUCED
  | REVIEWED
deriving DecidableEq

/-- A Movie node of the graph store: `title` and optional `released` year. -/
structure Movie where
  title : String
  released : Option Int
deriving DecidableEq

/-- A typed Person→Movie edge of the graph store. -/
structure Edge where
  person : String
  rel : EdgeType
  movie : String
deriving DecidableEq

/-- The graph store contents: Movie nodes, Person nodes (by unique name),
and typed edges. -/
structure Graph where
  movies : List Movie
  persons : List String
  edges : List Edge
deriving DecidableEq

/-- `fastapi.HTTPException`: status code and detail string. -/
structure HTTPError where
  status : Nat
  detail : String
deriving DecidableEq

/-- The status of an `Except HTTPError` result, `none` on success. -/
def errStatus {α : Type} : Except HTTPError α → Option Nat
  | .error e => some e.status
  | .ok _ => none

/-- Whether the graph has an edge `(person)-[rel]->(movie titled t)`. -/
def hasEdge (g : Graph) (p : String) (ty : EdgeType) (t : String) : Bool :=
  g.edges.any (fun e => decide (e.person = p ∧ e.rel = ty ∧ e.movie = t))

/-- `MATCH (m:Movie {title: $title}) RETURN m` produced a row. -/
def movieExists (g : Graph) (t : String) : Bool :=
  g.movies.any (fun m => decide (m.title = t))

/-- `MATCH (p:Person {name: $name}) RETURN p` produced a row. -/
def personExists (g : Graph) (n : String) : Bool :=
  g.persons.any (fun p => decide (p = n))

/-! ## Cross-store title reconciliation

`app.py` `api_common_movies` lower-cases the two title lists, intersects
them as sets and returns the sorted intersection with its size;
`app/main.py` `get_common_movies` intersects the raw titles with no
case folding.  Both are parametrized here by the two title lists the
stores return (`distinct_titles()` / `neo4j_movie_titles()`, and the
Mongo `find` / Cypher `MATCH (m:Movie)` scans). -/

/-- Python `str.lower`, written character-wise (extensionally
`String.toLower`) so that concrete strings evaluate in the kernel. -/
def pyLower (s : String) : String := ⟨s.data.map Char.toLower⟩

/-- Result shape of `/stats/common-movies` in `app.py`. -/
structure CommonMovies where
  count : Nat
  titles : List String
deriving DecidableEq

/-- `app.py` `api_common_movies`: case-insensitive set intersection of the
two stores' title lists, sorted ascending, with its cardinality. -/
def api_common_movies (mongoTitles neoTitles : List String) : CommonMovies :=
  let mongo := (mongoTitles.map pyLower).dedup
  let neo := (neoTitles.map pyLower).dedup
  let inter := mongo.filter (fun t => decide (t ∈ neo))
  let sortedInter := inter.insertionSort (fun a b => a ≤ b)
  ⟨sortedInter.length, sortedInter⟩

/-- Result shape of `/movies/common` in `app/main.py` (`CommonMoviesCount`). -/
structure CommonMoviesCount where
  mongo_count : Nat
  neo4j_count : Nat
  common_count : Nat
  common_titles : List String
deriving DecidableEq

/-- `app/main.py` `get_common_movies`: case-SENSITIVE set intersection of
the raw title lists of the two stores. -/
def get_common_movies (mongoTitles neoTitles : List String) : CommonMoviesCount :=
  let mongo := mongoTitles.dedup
  let neo := neoTitles.dedup
  let common := mongo.filter (fun t => decide (t ∈ neo))
  ⟨mongo.length, neo.length, common.length,
    common.insertionSort (fun a b => a ≤ b)⟩

/-! ## `app.py` legacy Neo4j store (User / RATED schema)

`db_neo4j.py` queries `(u:User)-[:RATED]->(m:Movie)`; its store is
modelled separately from the Person/REVIEWED graph. -/

/-- The legacy store of `db_neo4j.py`: User nodes, Movie nodes (titles),
and RATED edges `(user, movie title)`. -/
structure RatingStore where
  users : List String
  movies : List String
  rated : List (String × String)
deriving DecidableEq

/-- `db_neo4j.users_who_rated`: names of users with a RATED edge to the
movie of the given title. -/
def users_who_rated (s : RatingStore) (title : String) : List String :=
  (s.rated.filter (fun r => decide (r.2 = title ∧ r.1 ∈ s.users ∧ title ∈ s.movies))).map
    (fun r => r.1)

/-- Result shape of `/ratings/movie/{title}/users` in `app.py`. -/
structure MovieRaters where
  movie : String
  users : List String
deriving DecidableEq

/-- `app.py` `api_users_who_rated`: 404 whenever the user list is empty,
whether the movie is absent or merely unrated. -/
def api_users_who_rated (s : RatingStore) (title : String) :
    Except HTTPError MovieRaters :=
  let users := users_who_rated s title
  if users = [] then .error ⟨404, "No ratings or movie not found"⟩
  else .ok ⟨title, users⟩

/-! ## `app/main.py` user statistics -/

/-- Result shape of `/users/{name}` in `app/main.py` (`UserRatingStats`). -/
structure UserRatingStats where
  user : String
  rated_movie_count : Nat
  rated_movies : List String
deriving DecidableEq

/-- Titles of the Movie nodes the person has REVIEWED
(`MATCH (p:Person {name: $name})-[:REVIEWED]->(m:Movie)`; the pattern
matches nothing when the Person node itself is absent). -/
def reviewedTitles (g : Graph) (name : String) : List String :=
  if personExists g name then
    (g.movies.filter (fun m => hasEdge g name .REVIEWED m.title)).map (fun m => m.title)
  else []

/-- `app/main.py` `get_user_stats`: the aggregate row always exists
(count 0, empty collect on no match); on zero reviews an existence check
decides between 404 and an empty success result. -/
def get_user_stats (g : Graph) (name : String) : Except HTTPError UserRatingStats :=
  let movies := reviewedTitles g name
  if movies.length = 0 then
    if personExists g name then .ok ⟨name, 0, []⟩
    else .error ⟨404, "Person not found"⟩
  else .ok ⟨name, movies.length, movies⟩

/-! ## Recommendation engine (`app/routers/recommendations.py`)

Each Cypher query is translated to a pure list computation; `ORDER BY
score DESC` is modelled by an insertion sort on the score (release year
as the stated secondary key for the tier-3 movie query; ties are
otherwise store-dependent and no theorem relies on them).  `LIMIT
$limit` is `List.take` for a non-negative limit; Neo4j rejects a
negative `LIMIT` at query execution, which the routes surface through
their catch-all `except Exception` as a 500, modelled by the
`limit < 0` branch of each route. -/

/-- A row of the movie-recommendation queries: title, score and the
(optional) release year the route copies into the record. -/
structure Rec where
  movie : String
  score : Int
  year : Option Int
deriving DecidableEq

/-- A row of the person-recommendation queries: title and score. -/
structure RecU where
  movie : String
  score : Int
deriving DecidableEq

/-- Tier 1 of the movie route: reviewers of the target, the other movies
they reviewed, scored by the number of connecting reviewers. -/
def collabMovieQ (g : Graph) (t : String) (l : Nat) : List Rec :=
  let cands := g.movies.filterMap (fun rec =>
    if rec.title = t then none else
    let n := (g.persons.filter (fun p =>
      hasEdge g p .REVIEWED t && hasEdge g p .REVIEWED rec.title)).length
    if n = 0 then none else some ⟨rec.title, (n : Int), rec.released⟩)
  (cands.insertionSort (fun a b => b.score ≤ a.score)).take l

/-- The edge types of the tier-2 movie pattern `ACTED_IN|DIRECTED|WROTE`. -/
def castTypes : List EdgeType := [.ACTED_IN, .DIRECTED, .WROTE]

/-- How many of the `ACTED_IN|DIRECTED|WROTE` edge types connect person
`p` to the movie titled `t`. -/
def stCount (g : Graph) (p : String) (t : String) : Nat :=
  (castTypes.filter (fun ty => hasEdge g p ty t)).length

/-- Tier 2 of the movie route: movies sharing cast or crew with the
target; Cypher `count(person)` counts pattern matches, i.e. one per pair
of qualifying edge types. -/
def similarMovieQ (g : Graph) (t : String) (l : Nat) : List Rec :=
  let cands := g.movies.filterMap (fun rec =>
    if rec.title = t then none else
    let n := (g.persons.map (fun p => stCount g p t * stCount g p rec.title)).sum
    if n = 0 then none else some ⟨rec.title, (n : Int), rec.released⟩)
  (cands.insertionSort (fun a b => b.score ≤ a.score)).take l

/-- Tier 3 of the movie route: every other movie with a known release
year, scored 3 / 2 / 1 against the target's year (a null target year
falls through the CASE to 1), secondary sort key the release year. -/
def popularMovieQ (g : Graph) (t : String) (l : Nat) : List Rec :=
  let target := (g.movies.find? (fun m => decide (m.title = t))).bind Movie.released
  let cands := g.movies.filterMap (fun rec =>
    if rec.title = t then none else
    match rec.released with
    | none => none
    | some y =>
      let s : Int :=
        match target with
        | some ty => if y = ty then 3 else if y > ty then 2 else 1
        | none => 1
      some ⟨rec.title, s, some y⟩)
  (cands.insertionSort (fun a b =>
    a.score > b.score ∨ (a.score = b.score ∧ b.year.getD 0 ≤ a.year.getD 0))).take l

/-- `get_movie_recommendations`.  The existence check's 404 is raised
inside the route's `try`, whose bare `except Exception` catches
`HTTPException` too and re-raises it as a 500 whose detail embeds
`str(exc) = "404: …"`; the route therefore never surfaces a 404. -/
def get_movie_recommendations (g : Graph) (title : String) (limit : Int) :
    Except HTTPError (List Rec) :=
  if movieExists g title = false then
    .error ⟨500, "Error getting recommendations: 404: Movie '" ++ title ++ "' not found"⟩
  else if limit < 0 then
    .error ⟨500, "Error getting recommendations: Invalid input: LIMIT must not be negative"⟩
  else
    let recs := collabMovieQ g title limit.toNat
    if recs = [] then
      let recs := recs ++ similarMovieQ g title limit.toNat
      if recs = [] then .ok (recs ++ popularMovieQ g title limit.toNat)
      else .ok recs
    else .ok recs

/-- Count of movies both persons reviewed (`count(m) AS similarity`). -/
def simScore (g : Graph) (p1 p2 : String) : Nat :=
  (g.movies.filter (fun m =>
    hasEdge g p1 .REVIEWED m.title && hasEdge g p2 .REVIEWED m.title)).length

/-- Tier 1 of the person route: movies reviewed by similar persons and
not by the target, scored by the summed similarities.  Cypher
relationship uniqueness (with at most one REVIEWED edge per pair)
excludes `p2 = p1` from the co-review pattern. -/
def collabUserQ (g : Graph) (name : String) (l : Nat) : List RecU :=
  let cands := g.movies.filterMap (fun rec =>
    if hasEdge g name .REVIEWED rec.title then none else
    let ps := g.persons.filter (fun p2 =>
      decide (p2 ≠ name) && decide (1 ≤ simScore g name p2) &&
        hasEdge g p2 .REVIEWED rec.title)
    if ps = [] then none
    else some ⟨rec.title, ((ps.map (fun p2 => simScore g name p2)).sum : Int)⟩)
  (cands.insertionSort (fun a b => b.score ≤ a.score)).take l

/-- Tier 2 of the person route: movies the target has not reviewed,
scored by their number of reviewers. -/
def popularUserQ (g : Graph) (name : String) (l : Nat) : List RecU :=
  let cands := g.movies.filterMap (fun rec =>
    if hasEdge g name .REVIEWED rec.title then none else
    let others := g.persons.filter (fun p2 => hasEdge g p2 .REVIEWED rec.title)
    if others = [] then none else some ⟨rec.title, (others.length : Int)⟩)
  (cands.insertionSort (fun a b => b.score ≤ a.score)).take l

/-- Tier 3 of the person route: movies the target has not reviewed with
a known release year, scored by that year. -/
def recentUserQ (g : Graph) (name : String) (l : Nat) : List RecU :=
  let cands := g.movies.filterMap (fun rec =>
    if hasEdge g name .REVIEWED rec.title then none else
    match rec.released with
    | none => none
    | some y => some ⟨rec.title, y⟩)
  (cands.insertionSort (fun a b => b.score ≤ a.score)).take l

/-- `get_user_recommendations`; same catch-all defect as the movie
route: its own 404 is re-raised as a 500. -/
def get_user_recommendations (g : Graph) (name : String) (limit : Int) :
    Except HTTPError (List RecU) :=
  if personExists g name = false then
    .error ⟨500, "Error getting person recommendations: 404: Person '" ++ name ++ "' not found"⟩
  else if limit < 0 then
    .error ⟨500, "Error getting person recommendations: Invalid input: LIMIT must not be negative"⟩
  else
    let recs := collabUserQ g name limit.toNat
    if recs = [] then
      let recs := popularUserQ g name limit.toNat
      if recs = [] then .ok (recentUserQ g name limit.toNat)
      else .ok recs
    else .ok recs

/-! ## Degrees of separation (`app/routers/analytics.py` `get_shortest_path`)

`shortestPath((p1)-[:REVIEWED*]-(p2))` walks REVIEWED edges ignoring
direction and returns one connecting path of minimal length (or no row).
It is modelled by enumerating reversed walks of increasing length and
returning the first one that reaches the target, bounded by the node
count (a shortest path never repeats a node, so its length is below the
bound).  The route's formatting step keeps exactly the node's type tag
and its name/title, which is what `GNode` already is. -/

/-- A node of the graph as the path query sees it: its label and its
identifying property. -/
inductive GNode where
  | person (name : String)
  | movie (title : String)
deriving DecidableEq

/-- Undirected REVIEWED adjacency between two nodes. -/
def adj (g : Graph) (a b : GNode) : Bool :=
  match a, b with
  | .person p, .movie t => hasEdge g p .REVIEWED t
  | .movie t, .person p => hasEdge g p .REVIEWED t
  | _, _ => false

/-- The nodes of the graph adjacent to `a` over REVIEWED edges. -/
def nbrs (g : Graph) (a : GNode) : List GNode :=
  match a with
  | .person _ =>
    (g.movies.filter (fun m => adj g a (.movie m.title))).map (fun m => GNode.movie m.title)
  | .movie _ =>
    (g.persons.filter (fun p => adj g a (.person p))).map GNode.person

/-- All reversed walks of exactly `n` REVIEWED steps starting at `a`
(head of each list = the walk's current endpoint, last = `a`). -/
def rwalks (g : Graph) (a : GNode) : Nat → List (List GNode)
  | 0 => [[a]]
  | n + 1 =>
    (rwalks g a n).flatMap (fun w =>
      match w with
      | [] => []
      | c :: _ => (nbrs g c).map (fun b => b :: w))

/-- The first walk of exactly `n` steps from `a` ending at `b`, in node
order from `a` to `b`. -/
def pathAt (g : Graph) (a b : GNode) (n : Nat) : Option (List GNode) :=
  (((rwalks g a n).filter (fun w => decide (w.head? = some b))).head?).map List.reverse

/-- A walk of minimal length from `a` to `b` among lengths `0..n`. -/
def spUpTo (g : Graph) (a b : GNode) : Nat → Option (List GNode)
  | 0 => pathAt g a b 0
  | n + 1 =>
    match spUpTo g a b n with
    | some w => some w
    | none => pathAt g a b (n + 1)

/-- The Cypher `shortestPath` primitive over REVIEWED edges: a minimal
connecting walk, if one exists (its length is below the node count). -/
def shortestPath (g : Graph) (a b : GNode) : Option (List GNode) :=
  spUpTo g a b (g.persons.length + g.movies.length)

/-- The two successful outcomes of the path route: a found path with its
degrees of separation, or the no-path message object. -/
inductive PathResponse where
  | found (degrees : Nat) (path : List GNode)
  | noPath (message : String)
deriving DecidableEq

/-- `get_shortest_path`: one count query checks both names at once
(fewer than 2 matching Person nodes is a 404 with a fixed message); then
the shortest-path query either yields no row (message object) or a path,
reported with `degrees = (node count - 1) // 2`. -/
def get_shortest_path (g : Graph) (user1 user2 : String) :
    Except HTTPError PathResponse :=
  if (g.persons.filter (fun p => decide (p = user1 ∨ p = user2))).length < 2 then
    .error ⟨404, "One or both people not found"⟩
  else
    match shortestPath g (.person user1) (.person user2) with
    | none => .ok (.noPath "No path found between these people")
    | some w => .ok (.found ((w.length - 1) / 2) w)

/-! ## Theorems -/

/-- Two sorted-by-`≤` images of lists with equal membership and no
duplicates coincide. -/
lemma insertionSortLe_eq_of_mem_iff {l1 l2 : List String} (h1 : l1.Nodup) (h2 : l2.Nodup)
    (hm : ∀ t, t ∈ l1 ↔ t ∈ l2) :
    l1.insertionSort (fun x y => x ≤ y) = l2.insertionSort (fun x y => x ≤ y) := by
  have hp : l1.Perm l2 := (List.subperm_of_subset h1 (fun x hx => (hm x).1 hx)).antisymm
    (List.subperm_of_subset h2 (fun x hx => (hm x).2 hx))
  exact List.eq_of_perm_of_sorted
    (((List.perm_insertionSort _ l1).trans hp).trans (List.perm_insertionSort _ l2).symm)
    (List.sorted_insertionSort _ _) (List.sorted_insertionSort _ _)

/-- Claim C2: the reconciliation endpoint returns exactly the set of
titles whose lower-cased forms occur in both stores' title lists —
lower-casing only, no other normalization — sorted ascending on the
lower-cased form and without duplicates, together with its cardinality;
reconciling `["Jerry Maguire", "Toy Story"]` against
`["jerry maguire", "Heat"]` yields `["jerry maguire"]` with count 1. -/
theorem api_common_movies_reconciliation :
    (∀ a b : List String,
      ((api_common_movies a b).titles.Sorted (fun x y => x ≤ y)) ∧
      (api_common_movies a b).titles.Nodup ∧
      (∀ t, t ∈ (api_common_movies a b).titles ↔
        (t ∈ a.map pyLower ∧ t ∈ b.map pyLower)) ∧
      (api_common_movies a b).count = (api_common_movies a b).titles.length) ∧
    api_common_movies ["Jerry Maguire", "Toy Story"] ["jerry maguire", "Heat"] =
      ⟨1, ["jerry maguire"]⟩ := by
  refine ⟨fun a b => ⟨List.sorted_insertionSort _ _, ?_, ?_, rfl⟩, by decide⟩
  · exact ((List.perm_insertionSort _ _).nodup_iff).mpr ((List.nodup_dedup _).filter _)
  · intro t
    simp [api_common_movies, List.mem_insertionSort, List.mem_filter, List.mem_dedup]

/-- Claim C9: reconciliation is commutative — swapping the document-store
and graph-store title lists yields the same result (hence the same
intersection set and cardinality). -/
theorem api_common_movies_comm (a b : List String) :
    api_common_movies a b = api_common_movies b a := by
  have hs :
      (((a.map pyLower).dedup.filter
          (fun t => decide (t ∈ (b.map pyLower).dedup))).insertionSort
        (fun x y => x ≤ y)) =
      (((b.map pyLower).dedup.filter
          (fun t => decide (t ∈ (a.map pyLower).dedup))).insertionSort
        (fun x y => x ≤ y)) := by
    refine insertionSortLe_eq_of_mem_iff ((List.nodup_dedup _).filter _)
      ((List.nodup_dedup _).filter _) ?_
    intro t
    simp only [List.mem_filter, List.mem_dedup, decide_eq_true_eq]
    tauto
  simp only [api_common_movies]
  rw [hs]

/-- Claim C10: the alternative common-movies operation of `app/main.py`
includes a title iff the exact same string occurs in both stores
(case-sensitive); `["Heat"]` against `["heat"]` yields no common title
and count 0 there, while the case-insensitive reconciliation of `app.py`
yields `["heat"]` with count 1. -/
theorem get_common_movies_case_sensitive :
    (∀ (a b : List String) (t : String),
      t ∈ (get_common_movies a b).common_titles ↔ (t ∈ a ∧ t ∈ b)) ∧
    (get_common_movies ["Heat"] ["heat"]).common_titles = [] ∧
    (get_common_movies ["Heat"] ["heat"]).common_count = 0 ∧
    api_common_movies ["Heat"] ["heat"] = ⟨1, ["heat"]⟩ := by
  refine ⟨?_, by decide, by decide, by decide⟩
  intro a b t
  simp [get_common_movies, List.mem_insertionSort, List.mem_filter, List.mem_dedup]

/-- A one-movie graph in which only "Heat" exists. -/
def g1 : Graph := ⟨[⟨"Heat", some 1995⟩], ["Alice"], [⟨"Alice", .REVIEWED, "Heat"⟩]⟩

/-- Claim C1 (code-bug evaluation): querying recommendations for the
absent movie "Inception" does NOT fail with the NotFound kind (404): the
route's own 404 is caught by its bare `except Exception` and re-raised
as a 500 whose detail merely embeds the stringified 404. -/
theorem movie_recs_missing_title_is_500 :
    get_movie_recommendations g1 "Inception" 10 =
      .error ⟨500, "Error getting recommendations: 404: Movie 'Inception' not found"⟩ ∧
    errStatus (get_movie_recommendations g1 "Inception" 10) ≠ some 404 := by
  exact ⟨rfl, by decide⟩

/-- A store in which only Bob exists. -/
def g5a : Graph := ⟨[], ["Bob"], []⟩

/-- A store in which only Alice exists. -/
def g5b : Graph := ⟨[], ["Alice"], []⟩

/-- Claim C5 (counterexample): the NotFound result of the path route does
NOT identify which of the two persons is absent — with Alice absent and
with Bob absent the error is the identical fixed message, so no
identification is possible. -/
theorem path_404_does_not_identify_person :
    get_shortest_path g5a "Alice" "Bob" = .error ⟨404, "One or both people not found"⟩ ∧
    get_shortest_path g5b "Alice" "Bob" = .error ⟨404, "One or both people not found"⟩ := by
  exact ⟨rfl, rfl⟩

/-- In a duplicate-free list, at most one element equals `b`. -/
lemma length_filter_eq_le_one {α : Type} [DecidableEq α] {l : List α} (h : l.Nodup) (b : α) :
    (l.filter (fun p => decide (p = b))).length ≤ 1 := by
  induction l with
  | nil => simp
  | cons x xs ih =>
    rw [List.nodup_cons] at h
    by_cases hx : x = b
    · subst hx
      have hnil : xs.filter (fun p => decide (p = x)) = [] := by
        rw [List.filter_eq_nil_iff]
        intro a ha
        simp only [decide_eq_true_eq]
        intro he
        exact h.1 (he ▸ ha)
      simp [List.filter_cons, hnil]
    · simpa [List.filter_cons, hx] using ih h.2

/-- Claim C5 (amended): when at least one of the two person keys is
absent from a store with unique person names, the path route fails with
NotFound — both keys checked by one count query — but the error carries
the fixed message "One or both people not found" that does not say
which. -/
theorem path_notfound_when_person_absent (g : Graph) (user1 user2 : String)
    (hnd : g.persons.Nodup) (habs : user1 ∉ g.persons ∨ user2 ∉ g.persons) :
    get_shortest_path g user1 user2 = .error ⟨404, "One or both people not found"⟩ := by
  have hlen : (g.persons.filter (fun p => decide (p = user1 ∨ p = user2))).length < 2 := by
    rcases habs with h | h
    · have he : g.persons.filter (fun p => decide (p = user1 ∨ p = user2)) =
          g.persons.filter (fun p => decide (p = user2)) := by
        apply List.filter_congr
        intro x hx
        have hxu : x ≠ user1 := fun hh => h (hh ▸ hx)
        simp [hxu]
      rw [he]
      have := length_filter_eq_le_one hnd user2
      omega
    · have he : g.persons.filter (fun p => decide (p = user1 ∨ p = user2)) =
          g.persons.filter (fun p => decide (p = user1)) := by
        apply List.filter_congr
        intro x hx
        have hxu : x ≠ user2 := fun hh => h (hh ▸ hx)
        simp [hxu]
      rw [he]
      have := length_filter_eq_le_one hnd user1
      omega
  unfold get_shortest_path
  rw [if_pos hlen]

/-- Claim C5 (witness): the amended statement applied to a concrete
store in which Alice is absent. -/
theorem path_notfound_when_person_absent_witness :
    get_shortest_path g5a "Alice" "Bob" = .error ⟨404, "One or both people not found"⟩ :=
  path_notfound_when_person_absent g5a "Alice" "Bob" (by decide) (Or.inl (by decide))

/-- A legacy store in which the movie "Heat" exists with no ratings. -/
def rs7 : RatingStore := ⟨["Bob"], ["Heat"], []⟩

/-- Claim C7 (counterexample): `app.py` `api_users_who_rated` returns
NotFound for the EXISTING movie "Heat" that merely has zero raters,
conflating absence with emptiness. -/
theorem users_who_rated_conflates_404 :
    "Heat" ∈ rs7.movies ∧
    api_users_who_rated rs7 "Heat" = .error ⟨404, "No ratings or movie not found"⟩ := by
  exact ⟨by decide, rfl⟩

/-- Claim C7 (amended): `app/main.py` `get_user_stats` keeps the two
cases apart — an existing person with zero reviews gets an empty success
result, and NotFound is reserved for an absent person — while `app.py`
`api_users_who_rated` conflates them (see the counterexample). -/
theorem user_stats_separates_404 :
    (∀ (g : Graph) (name : String), personExists g name = true →
      reviewedTitles g name = [] → get_user_stats g name = .ok ⟨name, 0, []⟩) ∧
    (∀ (g : Graph) (name : String), personExists g name = false →
      get_user_stats g name = .error ⟨404, "Person not found"⟩) := by
  constructor
  · intro g name hx hz
    simp [get_user_stats, hz, hx]
  · intro g name hx
    simp [get_user_stats, reviewedTitles, hx]

/-- Claim C7 (witness): the amended statement applied to a person with
zero reviews and to an absent person in a concrete store. -/
theorem user_stats_separates_404_witness :
    get_user_stats g5a "Bob" = .ok ⟨"Bob", 0, []⟩ ∧
    get_user_stats g5a "Carol" = .error ⟨404, "Person not found"⟩ :=
  ⟨user_stats_separates_404.1 g5a "Bob" (by decide) (by decide),
   user_stats_separates_404.2 g5a "Carol" (by decide)⟩

/-- A graph in which "Heat" and Alice exist. -/
def g8 : Graph := ⟨[⟨"Heat", some 1995⟩], ["Alice"], [⟨"Alice", .REVIEWED, "Heat"⟩]⟩

/-- Claim C8 (counterexample): a recommendation request with the
non-positive limit 0 does NOT fail with InvalidInput — both routes
execute their queries and return an empty success result. -/
theorem recs_limit_zero_executes :
    get_movie_recommendations g8 "Heat" 0 = .ok [] ∧
    get_user_recommendations g8 "Alice" 0 = .ok [] := by
  exact ⟨rfl, rfl⟩

/-- Claim C8 (amended): neither recommendation route validates the limit
parameter: limit 0 yields an empty success result, and a negative limit
fails only at query execution, surfacing as a 500 store error — never as
InvalidInput (400). -/
theorem nonpositive_limit_not_rejected (g : Graph) (title name : String)
    (hm : movieExists g title = true) (hp : personExists g name = true) :
    get_movie_recommendations g title 0 = .ok [] ∧
    get_user_recommendations g name 0 = .ok [] ∧
    (∀ l : Int, l < 0 →
      errStatus (get_movie_recommendations g title l) = some 500 ∧
      errStatus (get_user_recommendations g name l) = some 500) := by
  refine ⟨?_, ?_, ?_⟩
  · simp [get_movie_recommendations, hm, collabMovieQ, similarMovieQ, popularMovieQ]
  · simp [get_user_recommendations, hp, collabUserQ, popularUserQ, recentUserQ]
  · intro l hl
    constructor
    · simp [get_movie_recommendations, hm, hl, errStatus]
    · simp [get_user_recommendations, hp, hl, errStatus]

/-- Claim C8 (witness): the amended statement applied to the concrete
store `g8`. -/
theorem nonpositive_limit_not_rejected_witness :
    get_movie_recommendations g8 "Heat" 0 = .ok [] ∧
    get_user_recommendations g8 "Alice" 0 = .ok [] ∧
    errStatus (get_movie_recommendations g8 "Heat" (-1)) = some 500 ∧
    errStatus (get_user_recommendations g8 "Alice" (-1)) = some 500 := by
  have h := nonpositive_limit_not_rejected g8 "Heat" "Alice" (by decide) (by decide)
  exact ⟨h.1, h.2.1, (h.2.2 (-1) (by decide)).1, (h.2.2 (-1) (by decide)).2⟩

/-- Claim C3: for an existing target movie and a non-negative limit the
movie route returns exactly the first non-empty tier in the order
collaborative, content-similarity, popularity/recency: tier 2 contributes
iff tier 1 is empty, tier 3 iff tiers 1 and 2 are both empty. -/
theorem movie_recs_tier_fallback (g : Graph) (title : String) (limit : Int)
    (hx : movieExists g title = true) (hl : 0 ≤ limit) :
    get_movie_recommendations g title limit = .ok (
      if collabMovieQ g title limit.toNat = [] then
        (if similarMovieQ g title limit.toNat = [] then popularMovieQ g title limit.toNat
         else similarMovieQ g title limit.toNat)
      else collabMovieQ g title limit.toNat) := by
  have hl' : ¬ limit < 0 := not_lt.mpr hl
  unfold get_movie_recommendations
  rw [if_neg (by simp [hx]), if_neg hl']
  by_cases h1 : collabMovieQ g title limit.toNat = []
  · by_cases h2 : similarMovieQ g title limit.toNat = []
    · simp [h1, h2]
    · simp [h1, h2]
  · simp [h1]

/-- A graph with a collaborative signal: Bob co-reviews "Heat" with
Alice and also reviews "Inception". -/
def g3 : Graph := ⟨[⟨"Heat", some 1995⟩, ⟨"Inception", some 2010⟩], ["Alice", "Bob"],
  [⟨"Alice", .REVIEWED, "Heat"⟩, ⟨"Bob", .REVIEWED, "Heat"⟩, ⟨"Bob", .REVIEWED, "Inception"⟩]⟩

/-- Claim C3 (witness): the tier-fallback statement applied to the
concrete store `g3` with limit 10. -/
theorem movie_recs_tier_fallback_witness :
    get_movie_recommendations g3 "Heat" 10 = .ok (
      if collabMovieQ g3 "Heat" (10 : Int).toNat = [] then
        (if similarMovieQ g3 "Heat" (10 : Int).toNat = [] then
          popularMovieQ g3 "Heat" (10 : Int).toNat
         else similarMovieQ g3 "Heat" (10 : Int).toNat)
      else collabMovieQ g3 "Heat" (10 : Int).toNat) :=
  movie_recs_tier_fallback g3 "Heat" 10 (by decide) (by decide)

/-- Tier-1 person rows are movies the target has not reviewed. -/
lemma collabUserQ_not_reviewed {g : Graph} {name : String} {l : Nat} {r : RecU}
    (h : r ∈ collabUserQ g name l) : hasEdge g name .REVIEWED r.movie = false := by
  unfold collabUserQ at h
  have h1 := (List.mem_insertionSort _).1 (List.mem_of_mem_take h)
  rcases List.mem_filterMap.1 h1 with ⟨rec, _, hf⟩
  by_cases he : hasEdge g name .REVIEWED rec.title
  · rw [if_pos he] at hf
    exact absurd hf (by simp)
  · rw [if_neg he] at hf
    simp only [] at hf
    split at hf
    · exact absurd hf (by simp)
    · injection hf with hf2
      subst hf2
      simpa using he

/-- Tier-2 person rows are movies the target has not reviewed. -/
lemma popularUserQ_not_reviewed {g : Graph} {name : String} {l : Nat} {r : RecU}
    (h : r ∈ popularUserQ g name l) : hasEdge g name .REVIEWED r.movie = false := by
  unfold popularUserQ at h
  have h1 := (List.mem_insertionSort _).1 (List.mem_of_mem_take h)
  rcases List.mem_filterMap.1 h1 with ⟨rec, _, hf⟩
  by_cases he : hasEdge g name .REVIEWED rec.title
  · rw [if_pos he] at hf
    exact absurd hf (by simp)
  · rw [if_neg he] at hf
    simp only [] at hf
    split at hf
    · exact absurd hf (by simp)
    · injection hf with hf2
      subst hf2
      simpa using he

/-- Tier-3 person rows are movies the target has not reviewed. -/
lemma recentUserQ_not_reviewed {g : Graph} {name : String} {l : Nat} {r : RecU}
    (h : r ∈ recentUserQ g name l) : hasEdge g name .REVIEWED r.movie = false := by
  unfold recentUserQ at h
  have h1 := (List.mem_insertionSort _).1 (List.mem_of_mem_take h)
  rcases List.mem_filterMap.1 h1 with ⟨rec, _, hf⟩
  by_cases he : hasEdge g name .REVIEWED rec.title
  · rw [if_pos he] at hf
    exact absurd hf (by simp)
  · rw [if_neg he] at hf
    split at hf
    · exact absurd hf (by simp)
    · injection hf with hf2
      subst hf2
      simpa using he

/-- Claim C4: whatever tier produced it, the person route never returns
a movie the target person has already reviewed. -/
theorem user_recs_never_reviewed (g : Graph) (name : String) (limit : Int)
    (recs : List RecU) (h : get_user_recommendations g name limit = .ok recs)
    (r : RecU) (hr : r ∈ recs) :
    hasEdge g name .REVIEWED r.movie = false := by
  unfold get_user_recommendations at h
  by_cases hp : personExists g name = false
  · rw [if_pos hp] at h
    exact absurd h (by simp)
  · rw [if_neg hp] at h
    by_cases hl : limit < 0
    · rw [if_pos hl] at h
      exact absurd h (by simp)
    · rw [if_neg hl] at h
      by_cases h1 : collabUserQ g name limit.toNat = []
      · rw [if_pos h1] at h
        by_cases h2 : popularUserQ g name limit.toNat = []
        · rw [if_pos h2] at h
          injection h with h3
          subst h3
          exact recentUserQ_not_reviewed hr
        · rw [if_neg h2] at h
          injection h with h3
          subst h3
          exact popularUserQ_not_reviewed hr
      · rw [if_neg h1] at h
        injection h with h3
        subst h3
        exact collabUserQ_not_reviewed hr

/-- The same store as `g3`, kept separate for the C4 witness. -/
def g4w : Graph := ⟨[⟨"Heat", some 1995⟩, ⟨"Inception", some 2010⟩], ["Alice", "Bob"],
  [⟨"Alice", .REVIEWED, "Heat"⟩, ⟨"Bob", .REVIEWED, "Heat"⟩, ⟨"Bob", .REVIEWED, "Inception"⟩]⟩

/-- Claim C4 (witness): in the concrete store `g4w` the route recommends
"Inception" to Alice, and Alice has indeed not reviewed it. -/
theorem user_recs_never_reviewed_witness :
    hasEdge g4w "Alice" .REVIEWED "Inception" = false :=
  user_recs_never_reviewed g4w "Alice" 10 [⟨"Inception", 1⟩] rfl ⟨"Inception", 1⟩ (by decide)

lemma rwalks_one (g : Graph) (a : GNode) :
    rwalks g a 1 = (nbrs g a).map (fun b => [b, a]) := by
  show rwalks g a (0 + 1) = _
  rw [rwalks]
  simp [rwalks]

lemma mem_rwalks_two {g : Graph} {a : GNode} {w : List GNode} :
    w ∈ rwalks g a 2 ↔ ∃ c, c ∈ nbrs g a ∧ ∃ b, b ∈ nbrs g c ∧ w = [b, c, a] := by
  show w ∈ rwalks g a (1 + 1) ↔ _
  rw [rwalks, rwalks_one]
  simp only [List.mem_flatMap, List.mem_map]
  constructor
  · rintro ⟨w1, ⟨c, hc, rfl⟩, hw⟩
    simp only [List.mem_map] at hw
    rcases hw with ⟨b, hb, rfl⟩
    exact ⟨c, hc, b, hb, rfl⟩
  · rintro ⟨c, hc, b, hb, rfl⟩
    refine ⟨[c, a], ⟨c, hc, rfl⟩, ?_⟩
    simp only [List.mem_map]
    exact ⟨b, hb, rfl⟩

lemma nbrs_person {g : Graph} {p : String} {b : GNode} (h : b ∈ nbrs g (.person p)) :
    ∃ t, b = .movie t ∧ hasEdge g p .REVIEWED t = true := by
  unfold nbrs at h
  simp only [List.mem_map, List.mem_filter] at h
  rcases h with ⟨m, ⟨_, hadj⟩, rfl⟩
  exact ⟨m.title, rfl, hadj⟩

lemma nbrs_movie {g : Graph} {t : String} {b : GNode} (h : b ∈ nbrs g (.movie t)) :
    ∃ q, b = .person q ∧ hasEdge g q .REVIEWED t = true := by
  unfold nbrs at h
  simp only [List.mem_map, List.mem_filter] at h
  rcases h with ⟨q, ⟨_, hadj⟩, rfl⟩
  exact ⟨q, rfl, hadj⟩

lemma movie_mem_nbrs_person {g : Graph} {p : String} {m : Movie}
    (hm : m ∈ g.movies) (he : hasEdge g p .REVIEWED m.title = true) :
    GNode.movie m.title ∈ nbrs g (.person p) := by
  unfold nbrs
  simp only [List.mem_map, List.mem_filter]
  exact ⟨m, ⟨hm, he⟩, rfl⟩

lemma person_mem_nbrs_movie {g : Graph} {t : String} {q : String}
    (hq : q ∈ g.persons) (he : hasEdge g q .REVIEWED t = true) :
    GNode.person q ∈ nbrs g (.movie t) := by
  unfold nbrs
  simp only [List.mem_map, List.mem_filter]
  exact ⟨q, ⟨hq, he⟩, rfl⟩

lemma pathAt_zero_ne {g : Graph} {u1 u2 : String} (hne : u1 ≠ u2) :
    pathAt g (.person u1) (.person u2) 0 = none := by
  simp [pathAt, rwalks, List.filter, hne]

lemma pathAt_one_persons {g : Graph} {u1 u2 : String} :
    pathAt g (.person u1) (.person u2) 1 = none := by
  unfold pathAt
  have hfil : (rwalks g (.person u1) 1).filter
      (fun w => decide (w.head? = some (.person u2))) = [] := by
    rw [List.filter_eq_nil_iff]
    intro w hw
    rw [rwalks_one] at hw
    simp only [List.mem_map] at hw
    rcases hw with ⟨b, hb, rfl⟩
    rcases nbrs_person hb with ⟨t, rfl, _⟩
    simp
  rw [hfil]
  rfl

lemma pathAt_two_shared {g : Graph} {u1 u2 : String} (m : Movie)
    (h2 : u2 ∈ g.persons) (hm : m ∈ g.movies)
    (e1 : hasEdge g u1 .REVIEWED m.title = true)
    (e2 : hasEdge g u2 .REVIEWED m.title = true) :
    ∃ t, pathAt g (.person u1) (.person u2) 2 =
        some [.person u1, .movie t, .person u2] ∧
      hasEdge g u1 .REVIEWED t = true ∧ hasEdge g u2 .REVIEWED t = true := by
  have hwmem : [GNode.person u2, .movie m.title, .person u1] ∈
      rwalks g (.person u1) 2 :=
    mem_rwalks_two.2 ⟨.movie m.title, movie_mem_nbrs_person hm e1,
      .person u2, person_mem_nbrs_movie h2 e2, rfl⟩
  have hfmem : [GNode.person u2, .movie m.title, .person u1] ∈
      (rwalks g (.person u1) 2).filter
        (fun w => decide (w.head? = some (.person u2))) := by
    rw [List.mem_filter]
    exact ⟨hwmem, by simp⟩
  unfold pathAt
  cases hfl : (rwalks g (.person u1) 2).filter
      (fun w => decide (w.head? = some (.person u2))) with
  | nil => rw [hfl] at hfmem; cases hfmem
  | cons w0 ws =>
    have hw0 : w0 ∈ (rwalks g (.person u1) 2).filter
        (fun w => decide (w.head? = some (.person u2))) := by
      rw [hfl]; exact List.mem_cons_self _ _
    rw [List.mem_filter] at hw0
    rcases mem_rwalks_two.1 hw0.1 with ⟨c, hc, b, hb, rfl⟩
    have hbu2 : b = .person u2 := by
      have := hw0.2
      simp only [List.head?, decide_eq_true_eq, Option.some.injEq] at this
      exact this
    subst hbu2
    rcases nbrs_person hc with ⟨t, rfl, ht1⟩
    rcases nbrs_movie hb with ⟨q, hq, ht2⟩
    have hqu2 : q = u2 := by
      cases hq
      rfl
    subst hqu2
    refine ⟨t, ?_, ht1, ht2⟩
    rfl

lemma spUpTo_succ_some {g : Graph} {a b : GNode} {n : Nat} {w : List GNode}
    (h : spUpTo g a b n = some w) : spUpTo g a b (n + 1) = some w := by
  rw [spUpTo, h]

lemma spUpTo_two_eq {g : Graph} {a b : GNode}
    (h0 : pathAt g a b 0 = none) (h1 : pathAt g a b 1 = none) :
    spUpTo g a b 2 = pathAt g a b 2 := by
  show spUpTo g a b (1 + 1) = _
  rw [spUpTo]
  show (match spUpTo g a b (0 + 1) with
    | some w => some w
    | none => pathAt g a b (1 + 1)) = _
  rw [spUpTo, spUpTo, h0, h1]

lemma two_le_length_of_two_mem {α : Type} {l : List α} {a b : α}
    (ha : a ∈ l) (hb : b ∈ l) (hne : a ≠ b) : 2 ≤ l.length := by
  induction l with
  | nil => cases ha
  | cons x xs ih =>
    rcases List.mem_cons.1 ha with rfl | ha2
    · rcases List.mem_cons.1 hb with h | hb2
      · exact absurd h.symm hne
      · have : 0 < xs.length := List.length_pos.2 (List.ne_nil_of_mem hb2)
        simp only [List.length_cons]
        omega
    · have : 0 < xs.length := List.length_pos.2 (List.ne_nil_of_mem ha2)
      simp only [List.length_cons]
      omega

lemma shortestPath_shared_movie {g : Graph} {u1 u2 : String} (m : Movie)
    (h1 : u1 ∈ g.persons) (h2 : u2 ∈ g.persons) (hne : u1 ≠ u2)
    (hm : m ∈ g.movies)
    (e1 : hasEdge g u1 .REVIEWED m.title = true)
    (e2 : hasEdge g u2 .REVIEWED m.title = true) :
    ∃ t, shortestPath g (.person u1) (.person u2) =
        some [.person u1, .movie t, .person u2] ∧
      hasEdge g u1 .REVIEWED t = true ∧ hasEdge g u2 .REVIEWED t = true := by
  rcases pathAt_two_shared m h2 hm e1 e2 with ⟨t, hp2, ht1, ht2⟩
  have hsp2 : spUpTo g (.person u1) (.person u2) 2 =
      some [.person u1, .movie t, .person u2] := by
    rw [spUpTo_two_eq (pathAt_zero_ne hne) pathAt_one_persons, hp2]
  have hbound : 2 ≤ g.persons.length + g.movies.length := by
    have := two_le_length_of_two_mem h1 h2 hne
    omega
  rcases Nat.exists_eq_add_of_le hbound with ⟨k, hk⟩
  have hall : ∀ j, spUpTo g (.person u1) (.person u2) (2 + j) =
      some [.person u1, .movie t, .person u2] := by
    intro j
    induction j with
    | zero => exact hsp2
    | succ i ih => exact spUpTo_succ_some ih
  refine ⟨t, ?_, ht1, ht2⟩
  unfold shortestPath
  rw [hk]
  exact hall k

theorem shortest_path_degrees :
    (∀ (g : Graph) (u1 u2 : String) (d : Nat) (p : List GNode),
      get_shortest_path g u1 u2 = .ok (.found d p) → d = (p.length - 1) / 2) ∧
    (∀ (g : Graph) (u1 u2 : String) (m : Movie),
      u1 ∈ g.persons → u2 ∈ g.persons → u1 ≠ u2 → m ∈ g.movies →
      hasEdge g u1 .REVIEWED m.title = true → hasEdge g u2 .REVIEWED m.title = true →
      ∃ t, get_shortest_path g u1 u2 =
          .ok (.found 1 [.person u1, .movie t, .person u2]) ∧
        hasEdge g u1 .REVIEWED t = true ∧ hasEdge g u2 .REVIEWED t = true) := by
  constructor
  · intro g u1 u2 d p h
    unfold get_shortest_path at h
    by_cases hc : (g.persons.filter (fun q => decide (q = u1 ∨ q = u2))).length < 2
    · rw [if_pos hc] at h
      exact absurd h (by simp)
    · rw [if_neg hc] at h
      cases hsp : shortestPath g (.person u1) (.person u2) with
      | none =>
        rw [hsp] at h
        exact absurd h (by simp)
      | some w =>
        rw [hsp] at h
        injection h with h2
        injection h2 with hd hp
        subst hd
        subst hp
        rfl
  · intro g u1 u2 m h1 h2 hne hm e1 e2
    rcases shortestPath_shared_movie m h1 h2 hne hm e1 e2 with ⟨t, hsp, ht1, ht2⟩
    have hcount : ¬ (g.persons.filter (fun q => decide (q = u1 ∨ q = u2))).length < 2 := by
      have hu1 : u1 ∈ g.persons.filter (fun q => decide (q = u1 ∨ q = u2)) :=
        List.mem_filter.2 ⟨h1, by simp⟩
      have hu2 : u2 ∈ g.persons.filter (fun q => decide (q = u1 ∨ q = u2)) :=
        List.mem_filter.2 ⟨h2, by simp⟩
      have := two_le_length_of_two_mem hu1 hu2 hne
      omega
    refine ⟨t, ?_, ht1, ht2⟩
    unfold get_shortest_path
    rw [if_neg hcount, hsp]
    norm_num

def g6 : Graph := ⟨[⟨"Heat", some 1995⟩], ["Alice", "Bob"],
  [⟨"Alice", .REVIEWED, "Heat"⟩, ⟨"Bob", .REVIEWED, "Heat"⟩]⟩

theorem shortest_path_degrees_witness :
    ∃ t, get_shortest_path g6 "Alice" "Bob" =
        .ok (.found 1 [.person "Alice", .movie t, .person "Bob"]) ∧
      hasEdge g6 "Alice" .REVIEWED t = true ∧ hasEdge g6 "Bob" .REVIEWED t = true :=
  shortest_path_degrees.2 g6 "Alice" "Bob" ⟨"Heat", some 1995⟩ (by decide) (by decide)
    (by decide) (by decide) (by decide) (by decide)

end MoviesApp
